import Mathlib

/-!
Shallow embedding of the get-popular-names repository
(populate_ddb_with_names.py, lambda_function.py) and proofs of the
spec claims about it.

Conventions of the embedding:
* Python strings are Lean `String`; `str.strip`, `str.split(",")`,
  `str.startswith` and slicing are modelled over `String.data`.
* Python `int(...)` is modelled by `parseInt` (surrounding whitespace
  and an optional sign are accepted; the rarely used underscore digit
  separators are not modelled).
* Python dicts that are used as ordered key/value records (the DynamoDB
  item, the name-count dict) are association lists preserving insertion
  order, matching CPython dict iteration order.
* The DynamoDB table is an association list from state key to item;
  `put_item` has full-overwrite semantics; a store that raises
  `ClientError` is modelled by the `DDB.failed` constructor.
-/

/-! ## String helpers (models of Python str methods) -/

/-- Model of Python `str.strip()` on the underlying character list. -/
def stripChars (l : List Char) : List Char :=
  ((l.dropWhile Char.isWhitespace).reverse.dropWhile Char.isWhitespace).reverse

/-- Model of Python `str.strip()`. -/
def pyStrip (s : String) : String :=
  String.mk (stripChars s.data)

/-- Model of Python `str.split(",")` (keeps empty fields, `"" ↦ [""]`). -/
def splitCommaAux : List Char → List Char → List String
  | [], acc => [String.mk acc.reverse]
  | c :: rest, acc =>
    if c = ',' then String.mk acc.reverse :: splitCommaAux rest []
    else splitCommaAux rest (c :: acc)

/-- Model of Python `str.split(",")`. -/
def splitComma (s : String) : List String :=
  splitCommaAux s.data []

/-- Value of a nonempty all-digit character list, else `none`. -/
def digitsVal (l : List Char) : Option Nat :=
  if l ≠ [] ∧ l.all Char.isDigit then
    some (l.foldl (fun acc c => acc * 10 + (c.toNat - 48)) 0)
  else none

/-- Model of Python `int(str)`: strips whitespace, optional sign, digits. -/
def parseInt (s : String) : Option Int :=
  match stripChars s.data with
  | '-' :: rest => (digitsVal rest).map (fun n => -(n : Int))
  | '+' :: rest => (digitsVal rest).map (fun n => (n : Int))
  | l => (digitsVal l).map (fun n => (n : Int))

/-- Model of Python `str.startswith(p)`. -/
def strStartsWith (s p : String) : Bool :=
  decide (s.data.take p.data.length = p.data)

/-- Model of Python slicing `str[n:]`. -/
def strDrop (s : String) (n : Nat) : String :=
  String.mk (s.data.drop n)

/-! ## populate_ddb_with_names.py : analyze_names -/

/-- Update of the `name_counts` defaultdict: `name_counts[name] += c`,
preserving CPython dict insertion order (new keys appended). -/
def addCount : List (String × Int) → String → Int → List (String × Int)
  | [], name, c => [(name, c)]
  | (k, v) :: rest, name, c =>
    if k = name then (k, v + c) :: rest
    else (k, v) :: addCount rest name c

/-- Parsing of one input line of `analyze_names`: strip, split on commas,
require exactly 5 fields `state, gender, year, name, count`, parse year
and count as integers. Returns `(name, year, count)` or `none` for a
malformed line. -/
def parseLine (line : String) : Option (String × Int × Int) :=
  match splitComma (pyStrip line) with
  | [_, _, year, name, count] =>
    match parseInt year, parseInt count with
    | some y, some c => some (name, y, c)
    | _, _ => none
  | _ => none

/-- Whether a line of `analyze_names` input survives both the malformed
checks and the 1955..2010 year window. -/
def lineAdmitted (line : String) : Bool :=
  match parseLine line with
  | some (_, y, _) => decide (1955 ≤ y ∧ y ≤ 2010)
  | none => false

/-- One iteration of the `analyze_names` read loop over the state
`(name_counts, total_name_count)`. -/
def processLine (st : List (String × Int) × Int) (line : String) :
    List (String × Int) × Int :=
  match parseLine line with
  | none => st
  | some (name, year, count) =>
    if 1955 ≤ year ∧ year ≤ 2010 then (addCount st.1 name count, st.2 + count)
    else st

/-- Model of `analyze_names` over the list of lines of the data file:
fold the read loop, then `sorted(..., key=count, reverse=True)`. Python
sorting is stable, which insertion sort with the non-strict descending
relation reproduces. Returns the ranked list and the grand total. -/
def analyze_names (lines : List String) : List (String × Int) × Int :=
  let r := lines.foldl processLine ([], 0)
  (List.insertionSort (fun a b => b.2 ≤ a.2) r.1, r.2)

/-! ## populate_ddb_with_names.py : create_name_buckets -/

/-- The packing loop of `create_name_buckets`: walks the ranked names,
keeping the current bucket index and the running serialized size
(starting at 2 for the brackets).  A name costs `len(name) + 4`.  If it
would overflow, advance to the next bucket (resetting the size) and stop
once all buckets are used; the name is then appended to the current
bucket without a further size check, exactly as in the source. -/
def packAux (max_bucket_size num_buckets : Nat) :
    List String → Nat → Nat → List (List String) → List (List String)
  | [], _, _, buckets => buckets
  | name :: rest, idx, size, buckets =>
    let name_size := name.length + 4
    if max_bucket_size < size + name_size then
      if num_buckets ≤ idx + 1 then buckets
      else
        packAux max_bucket_size num_buckets rest (idx + 1) (2 + name_size)
          (buckets.set (idx + 1) (buckets.getD (idx + 1) [] ++ [name]))
    else
      packAux max_bucket_size num_buckets rest idx (size + name_size)
        (buckets.set idx (buckets.getD idx [] ++ [name]))

/-- Model of `create_name_buckets(results, max_bucket_size, num_buckets)`. -/
def create_name_buckets (results : List (String × Int))
    (max_bucket_size num_buckets : Nat) : List (List String) :=
  packAux max_bucket_size num_buckets (results.map Prod.fst) 0 2
    (List.replicate num_buckets [])

/-- The packing loop of `create_international_name_buckets`: identical to
`packAux` except that a name contained in `existing_names` is skipped
before any size accounting. -/
def packIntlAux (existing_names : List String) (max_bucket_size num_buckets : Nat) :
    List String → Nat → Nat → List (List String) → List (List String)
  | [], _, _, buckets => buckets
  | name :: rest, idx, size, buckets =>
    if name ∈ existing_names then
      packIntlAux existing_names max_bucket_size num_buckets rest idx size buckets
    else
      let name_size := name.length + 4
      if max_bucket_size < size + name_size then
        if num_buckets ≤ idx + 1 then buckets
        else
          packIntlAux existing_names max_bucket_size num_buckets rest (idx + 1)
            (2 + name_size)
            (buckets.set (idx + 1) (buckets.getD (idx + 1) [] ++ [name]))
      else
        packIntlAux existing_names max_bucket_size num_buckets rest idx
          (size + name_size) (buckets.set idx (buckets.getD idx [] ++ [name]))

/-- Model of `create_international_name_buckets`. The Python `set` of
existing names is represented by a list with its membership test. -/
def create_international_name_buckets (names existing_names : List String)
    (max_bucket_size num_buckets : Nat) : List (List String) :=
  packIntlAux existing_names max_bucket_size num_buckets names 0 2
    (List.replicate num_buckets [])

/-- The serialized size the source attributes to a bucket: 2 bytes of
container overhead plus `len(name) + 4` per name. -/
def bucketSize (b : List String) : Nat :=
  2 + (b.map (fun n => n.length + 4)).sum

/-! ## DynamoDB model, write_to_dynamodb, process_state_file -/

/-- A DynamoDB attribute value as used by this table: the state string,
a list of names, or a number. -/
inductive Attr where
  | strA : String → Attr
  | namesA : List String → Attr
  | numA : Int → Attr
deriving DecidableEq

/-- A DynamoDB item: an ordered association of attribute names to
values, in the insertion order of the Python dict. -/
abbrev Item := List (String × Attr)

/-- Attribute lookup in an item (`key in item` / `item[key]`). -/
def alookup : Item → String → Option Attr
  | [], _ => none
  | (k, v) :: rest, key => if key = k then some v else alookup rest key

/-- Item lookup by state key (`table.get_item`). -/
def dblookup : List (String × Item) → String → Option Item
  | [], _ => none
  | (k, v) :: rest, key => if key = k then some v else dblookup rest key

/-- `table.put_item`: full-overwrite upsert of the item under its key. -/
def put_item (store : List (String × Item)) (key : String) (item : Item) :
    List (String × Item) :=
  store.filter (fun p => decide (p.1 ≠ key)) ++ [(key, item)]

/-- The bucket attribute key written by the loader for ordinal `i`
(`f"stateBucket{i}"`). -/
def stateBucketKey (i : Nat) : String :=
  "stateBucket" ++ toString i

/-- The item assembled by `write_to_dynamodb` (lines 247..267): the four
state buckets with their counts, the summary counts, and — only when
`other_name_buckets` is present and non-empty (Python truthiness) — the
two supplementary buckets with their counts. -/
def write_to_dynamodb_item (state : String) (name_buckets : List (List String))
    (unique_names_count : Nat) (total_name_count : Int)
    (other_name_buckets : Option (List (List String))) : Item :=
  let base : Item := [
    ("State", Attr.strA state),
    ("stateBucket1", Attr.namesA (name_buckets.getD 0 [])),
    ("stateBucket2", Attr.namesA (name_buckets.getD 1 [])),
    ("stateBucket3", Attr.namesA (name_buckets.getD 2 [])),
    ("stateBucket4", Attr.namesA (name_buckets.getD 3 [])),
    ("stateBucket1Count", Attr.numA ((name_buckets.getD 0 []).length : Int)),
    ("stateBucket2Count", Attr.numA ((name_buckets.getD 1 []).length : Int)),
    ("stateBucket3Count", Attr.numA ((name_buckets.getD 2 []).length : Int)),
    ("stateBucket4Count", Attr.numA ((name_buckets.getD 3 []).length : Int)),
    ("uniqueNamesCount", Attr.numA (unique_names_count : Int)),
    ("totalNameCount", Attr.numA total_name_count)]
  match other_name_buckets with
  | none => base
  | some obs =>
    if obs = [] then base
    else base ++ [
      ("otherNamesBucket1", Attr.namesA (obs.getD 0 [])),
      ("otherNamesBucket2", Attr.namesA (obs.getD 1 [])),
      ("otherNamesBucket1Count", Attr.numA ((obs.getD 0 []).length : Int)),
      ("otherNamesBucket2Count", Attr.numA ((obs.getD 1 []).length : Int))]

/-- Model of `get_all_existing_names`: scan every item of the table and
collect the names of its `stateBucket1..4` attributes. The Python `set`
is modelled as the accumulated list. -/
def get_all_existing_names (store : List (String × Item)) : List String :=
  store.foldl (fun acc p =>
    [1, 2, 3, 4].foldl (fun acc2 i =>
      match alookup p.2 (stateBucketKey i) with
      | some (Attr.namesA l) => acc2 ++ l
      | _ => acc2) acc) []

/-- The supplementary-bucket computation of `process_state_file`
(lines 307..326): nothing when `international_names` is absent or empty
(Python truthiness); otherwise the scanned `existing_names` value is
obtained (from the argument, or by scanning the store when the argument
is `None`) but never used — packing excludes only the names of the
freshly computed state buckets. -/
def process_other_buckets (store : List (String × Item))
    (name_buckets : List (List String)) (international_names : Option (List String))
    (existing_names : Option (List String)) : Option (List (List String)) :=
  match international_names with
  | none => none
  | some intl =>
    if intl = [] then none
    else
      let _existing : List String :=
        match existing_names with
        | some e => e
        | none => get_all_existing_names store
      let state_names := name_buckets.flatten
      some (create_international_name_buckets intl state_names 3950 2)

/-- Model of `process_state_file`: aggregate the lines of the state
file, pack the state buckets, compute the supplementary buckets, and
write the assembled item. Returns the written item and the updated
store. -/
def process_state_file (store : List (String × Item)) (file_lines : List String)
    (state : String) (international_names : Option (List String))
    (existing_names : Option (List String)) : Item × List (String × Item) :=
  let r := analyze_names file_lines
  let name_buckets := create_name_buckets r.1 3950 4
  let other_name_buckets :=
    process_other_buckets store name_buckets international_names existing_names
  let item := write_to_dynamodb_item state name_buckets r.1.length r.2
    other_name_buckets
  (item, put_item store state item)

/-! ## lambda_function.py : lookup service -/

/-- The DynamoDB collaborator as the lookup lambda sees it: either a
readable table, or one whose `get_item` raises `ClientError` with the
given message. -/
inductive DDB where
  | avail : List (String × Item) → DDB
  | failed : String → DDB

/-- The payload handed to `format_response`: either data (an attribute
value, in particular a list of names) or an error object with its
message. -/
inductive RData where
  | data : Attr → RData
  | errObj : String → RData
deriving DecidableEq

/-- The query section of `lambda_handler` (lines 108..128): fetch the
item for the state; a missing item or a missing bucket key resolves to
the empty list, a `ClientError` to an error object. -/
def query_bucket (db : DDB) (state bucket : String) : RData :=
  match db with
  | DDB.failed msg => RData.errObj msg
  | DDB.avail items =>
    match dblookup items state with
    | none => RData.data (Attr.namesA [])
    | some item =>
      match alookup item bucket with
      | none => RData.data (Attr.namesA [])
      | some a => RData.data a

/-- The validation chain and query of `lambda_handler` (lines 59..128),
after the request shape has been normalized to a state and a bucket
string (Python `None` and the empty string are both falsy, so a missing
value is represented by `""`). Error messages are kept without the
surrounding quote characters of the source. -/
def validate_and_query (db : DDB) (state bucket : String) : RData :=
  if state = "" ∨ bucket = "" then
    RData.errObj "Missing required parameters: state and bucket"
  else if ¬ (strStartsWith bucket "stateBucket" = true ∨
      strStartsWith bucket "otherNamesBucket" = true) then
    RData.errObj "bucket must start with stateBucket or otherNamesBucket"
  else if strStartsWith bucket "stateBucket" then
    match parseInt (strDrop bucket "stateBucket".length) with
    | none =>
      RData.errObj "Invalid bucket format. Expected stateBucket1 through stateBucket4"
    | some n =>
      if n < 1 ∨ 4 < n then
        RData.errObj "For state buckets, number must be between 1 and 4"
      else query_bucket db state bucket
  else
    match parseInt (strDrop bucket "otherNamesBucket".length) with
    | none =>
      RData.errObj "Invalid bucket format. Expected otherNamesBucket1 or otherNamesBucket2"
    | some n =>
      if n < 1 ∨ 2 < n then
        RData.errObj "For other names buckets, number must be between 1 and 2"
      else query_bucket db state bucket

/-- One entry of `transcript_with_tool_calls`: it may carry an
`arguments` field that parses as JSON (with optional `state` and
`bucket` members), carry one whose JSON parse raises, or lack the field
altogether. -/
inductive ToolCall where
  | withArgs : Option String → Option String → ToolCall
  | badArgs : ToolCall
  | noArgs : ToolCall
deriving DecidableEq

/-- The parsed request body of an API-Gateway event: the `args` shape,
the tool-call transcript shape, or anything else. -/
inductive Body where
  | argsShape : Option String → Option String → Body
  | transcriptShape : List ToolCall → Body
  | otherShape : Body
deriving DecidableEq

/-- An inbound event: a direct invocation carrying optional `state` and
`bucket` members, or an API-Gateway event carrying a body. -/
inductive Event where
  | direct : Option String → Option String → Event
  | apiGateway : Body → Event

/-- A lambda response: the API-Gateway envelope with its status code, or
the raw payload of a direct invocation. -/
inductive Response where
  | envelope : Nat → RData → Response
  | raw : RData → Response
deriving DecidableEq

/-- Model of `format_response` (lines 130..146): wrap in a status-200
envelope for API-Gateway events, return the payload untouched otherwise. -/
def format_response (d : RData) (is_api_gateway : Bool) : Response :=
  if is_api_gateway then Response.envelope 200 d else Response.raw d

/-- The transcript loop (lines 43..48): take the first tool call that has
an `arguments` field; if its JSON parse raises, or if no call has the
field (leaving `state` unbound), the surrounding `except` catches the
exception, which `none` stands for. -/
def extractFirstArgs : List ToolCall → Option (Option String × Option String)
  | [] => none
  | ToolCall.withArgs s b :: _ => some (s, b)
  | ToolCall.badArgs :: _ => none
  | ToolCall.noArgs :: rest => extractFirstArgs rest

/-- Model of the whole `lambda_handler` of lambda_function.py: request
shape dispatch, validation, query, and response shaping. A missing
optional member normalizes to `""` (both are falsy at the validation). -/
def lambda_handler (db : DDB) (event : Event) : Response :=
  match event with
  | Event.direct st bk =>
    format_response (validate_and_query db (st.getD "") (bk.getD "")) false
  | Event.apiGateway body =>
    match body with
    | Body.argsShape st bk =>
      format_response (validate_and_query db (st.getD "") (bk.getD "")) true
    | Body.transcriptShape calls =>
      match extractFirstArgs calls with
      | some (st, bk) =>
        format_response (validate_and_query db (st.getD "") (bk.getD "")) true
      | none => format_response (RData.errObj "Error parsing request") true
    | Body.otherShape => Response.envelope 400 (RData.errObj "Invalid request format")

/-! ## Helper lemmas about the packing loops -/

theorem getD_set_ne {α : Type} (d : α) :
    ∀ (l : List α) (i j : Nat) (v : α), i ≠ j → (l.set i v).getD j d = l.getD j d
  | [], _, _, _, _ => by simp
  | a :: l, 0, 0, v, h => absurd rfl h
  | a :: l, 0, j + 1, v, _ => by simp
  | a :: l, i + 1, 0, v, _ => by simp
  | a :: l, i + 1, j + 1, v, h => by
    simpa using getD_set_ne d l i j v (fun hh => h (by omega))

theorem getD_set_self {α : Type} (d : α) :
    ∀ (l : List α) (i : Nat) (v : α), i < l.length → (l.set i v).getD i d = v
  | [], i, v, h => by simp at h
  | a :: l, 0, v, _ => by simp
  | a :: l, i + 1, v, h => by
    simpa using getD_set_self d l i v (by simpa using h)

theorem getD_replicate_empty :
    ∀ (k j : Nat), (List.replicate k ([] : List String)).getD j [] = []
  | 0, _ => by simp
  | k + 1, 0 => by simp
  | k + 1, j + 1 => by simp [List.replicate, getD_replicate_empty k j]

/-- Appending a name to bucket `idx` appends it to the concatenation of
all buckets, provided the buckets after `idx` are still empty. -/
theorem flatten_set_append :
    ∀ (bs : List (List String)) (idx : Nat) (name : String),
    idx < bs.length → (∀ j, idx < j → bs.getD j [] = []) →
    (bs.set idx (bs.getD idx [] ++ [name])).flatten = bs.flatten ++ [name]
  | [], idx, name, h, _ => by simp at h
  | b :: rest, 0, name, _, hafter => by
    have hrest : rest.flatten = [] := by
      apply List.flatten_eq_nil_iff.mpr
      intro x hx
      obtain ⟨j, hj, hxe⟩ := List.mem_iff_getElem.mp hx
      have := hafter (j + 1) (by omega)
      simp only [List.getD_cons_succ] at this
      rw [← hxe, ← List.getD_eq_getElem rest [] hj, this]
    simp [hrest]
  | b :: rest, idx + 1, name, h, hafter => by
    have ih := flatten_set_append rest idx name (by simpa using h)
      (fun j hj => by simpa using hafter (j + 1) (by omega))
    simp only [List.getD_cons_succ, List.set_cons_succ, List.flatten_cons, ih,
      List.append_assoc]

/-- The packing loop only ever extends the concatenation of the buckets
with a prefix of the remaining names. -/
theorem packAux_flatten (m k : Nat) :
    ∀ (names : List String) (idx size : Nat) (bs : List (List String)),
    bs.length = k → idx < k → (∀ j, idx < j → bs.getD j [] = []) →
    ∃ t, (packAux m k names idx size bs).flatten = bs.flatten ++ names.take t := by
  intro names
  induction names with
  | nil => intro idx size bs _ _ _; exact ⟨0, by simp [packAux]⟩
  | cons name rest ih =>
    intro idx size bs hlen hidx hafter
    by_cases hfit : m < size + (name.length + 4)
    · by_cases hlast : k ≤ idx + 1
      · exact ⟨0, by simp [packAux, hfit, hlast]⟩
      · have hidx1 : idx + 1 < bs.length := by omega
        have hflat := flatten_set_append bs (idx + 1) name hidx1
          (fun j hj => hafter j (by omega))
        obtain ⟨t, ht⟩ := ih (idx + 1) (2 + (name.length + 4))
          (bs.set (idx + 1) (bs.getD (idx + 1) [] ++ [name]))
          (by simpa using hlen) (by omega)
          (fun j hj => by
            rw [getD_set_ne [] bs (idx + 1) j _ (by omega)]
            exact hafter j (by omega))
        refine ⟨t + 1, ?_⟩
        simp only [packAux, hfit, hlast, if_true, if_false, ite_true, ite_false]
        rw [ht, hflat]
        simp
    · have hidx' : idx < bs.length := by omega
      have hflat := flatten_set_append bs idx name hidx' hafter
      obtain ⟨t, ht⟩ := ih idx (size + (name.length + 4))
        (bs.set idx (bs.getD idx [] ++ [name]))
        (by simpa using hlen) hidx
        (fun j hj => by
          rw [getD_set_ne [] bs idx j _ (by omega)]
          exact hafter j hj)
      refine ⟨t + 1, ?_⟩
      simp only [packAux]
      rw [if_neg hfit, ht, hflat]
      simp

theorem bucketSize_append (b : List String) (name : String) :
    bucketSize (b ++ [name]) = bucketSize b + (name.length + 4) := by
  simp [bucketSize]
  omega

/-- Size invariant of the packing loop: as long as every remaining name
fits into an empty bucket, every bucket stays within the budget. -/
theorem packAux_size (m k : Nat) :
    ∀ (names : List String) (idx size : Nat) (bs : List (List String)),
    (∀ n ∈ names, 2 + (n.length + 4) ≤ m) →
    bs.length = k → idx < k →
    (∀ j, idx < j → bs.getD j [] = []) →
    (∀ b ∈ bs, bucketSize b ≤ m) →
    size = bucketSize (bs.getD idx []) →
    ∀ b ∈ packAux m k names idx size bs, bucketSize b ≤ m := by
  intro names
  induction names with
  | nil =>
    intro idx size bs _ _ _ _ hall _ b hb
    exact hall b (by simpa [packAux] using hb)
  | cons name rest ih =>
    intro idx size bs hnames hlen hidx hafter hall hsize
    by_cases hfit : m < size + (name.length + 4)
    · by_cases hlast : k ≤ idx + 1
      · intro b hb
        exact hall b (by simpa [packAux, hfit, hlast] using hb)
      · intro b hb
        simp only [packAux, hfit, hlast, if_true, if_false, ite_true,
          ite_false] at hb
        have hidx1 : idx + 1 < bs.length := by omega
        have hcur : bs.getD (idx + 1) [] = [] := hafter (idx + 1) (by omega)
        refine ih (idx + 1) (2 + (name.length + 4))
          (bs.set (idx + 1) (bs.getD (idx + 1) [] ++ [name]))
          (fun n hn => hnames n (List.mem_cons_of_mem _ hn))
          (by simpa using hlen) (by omega)
          (fun j hj => by
            rw [getD_set_ne [] bs (idx + 1) j _ (by omega)]
            exact hafter j (by omega))
          ?_ ?_ b hb
        · intro b' hb'
          rcases List.mem_or_eq_of_mem_set hb' with h | h
          · exact hall b' h
          · subst h
            rw [hcur]
            have := hnames name (List.mem_cons_self name rest)
            simp [bucketSize]
            omega
        · rw [getD_set_self [] bs (idx + 1) _ hidx1, hcur]
          simp [bucketSize]
    · intro b hb
      simp only [packAux, hfit, if_false, ite_false] at hb
      have hidx' : idx < bs.length := by omega
      refine ih idx (size + (name.length + 4))
        (bs.set idx (bs.getD idx [] ++ [name]))
        (fun n hn => hnames n (List.mem_cons_of_mem _ hn))
        (by simpa using hlen) hidx
        (fun j hj => by
          rw [getD_set_ne [] bs idx j _ (by omega)]
          exact hafter j hj)
        ?_ ?_ b hb
      · intro b' hb'
        rcases List.mem_or_eq_of_mem_set hb' with h | h
        · exact hall b' h
        · subst h
          rw [bucketSize_append, ← hsize]
          omega
      · rw [getD_set_self [] bs idx _ hidx', bucketSize_append, hsize]

/-- Every name placed by the packing loop comes from the initial buckets
or from the name list. -/
theorem packAux_mem (m k : Nat) :
    ∀ (names : List String) (idx size : Nat) (bs : List (List String)),
    bs.length = k → idx < k →
    ∀ b ∈ packAux m k names idx size bs, ∀ n ∈ b,
      (∃ b0 ∈ bs, n ∈ b0) ∨ n ∈ names := by
  intro names
  induction names with
  | nil =>
    intro idx size bs _ _ b hb n hn
    exact Or.inl ⟨b, by simpa [packAux] using hb, hn⟩
  | cons name rest ih =>
    intro idx size bs hlen hidx b hb n hn
    by_cases hfit : m < size + (name.length + 4)
    · by_cases hlast : k ≤ idx + 1
      · exact Or.inl ⟨b, by simpa [packAux, hfit, hlast] using hb, hn⟩
      · simp only [packAux, hfit, hlast, if_true, if_false, ite_true,
          ite_false] at hb
        have hidx1 : idx + 1 < bs.length := by omega
        rcases ih (idx + 1) (2 + (name.length + 4))
            (bs.set (idx + 1) (bs.getD (idx + 1) [] ++ [name]))
            (by simpa using hlen) (by omega) b hb n hn with ⟨b0, hb0, hnb0⟩ | h
        · rcases List.mem_or_eq_of_mem_set hb0 with h | h
          · exact Or.inl ⟨b0, h, hnb0⟩
          · subst h
            rcases List.mem_append.mp hnb0 with h | h
            · refine Or.inl ⟨bs.getD (idx + 1) [], ?_, h⟩
              rw [List.getD_eq_getElem bs [] hidx1]
              exact List.getElem_mem hidx1
            · simp at h
              subst h
              exact Or.inr (List.mem_cons_self _ _)
        · exact Or.inr (List.mem_cons_of_mem _ h)
    · simp only [packAux, hfit, if_false, ite_false] at hb
      have hidx' : idx < bs.length := by omega
      rcases ih idx (size + (name.length + 4))
          (bs.set idx (bs.getD idx [] ++ [name]))
          (by simpa using hlen) hidx b hb n hn with ⟨b0, hb0, hnb0⟩ | h
      · rcases List.mem_or_eq_of_mem_set hb0 with h | h
        · exact Or.inl ⟨b0, h, hnb0⟩
        · subst h
          rcases List.mem_append.mp hnb0 with h | h
          · refine Or.inl ⟨bs.getD idx [], ?_, h⟩
            rw [List.getD_eq_getElem bs [] hidx']
            exact List.getElem_mem hidx'
          · simp at h
            subst h
            exact Or.inr (List.mem_cons_self _ _)
      · exact Or.inr (List.mem_cons_of_mem _ h)

/-- The international packing loop is the plain packing loop on the
names not present in the exclusion set. -/
theorem packIntlAux_eq_filter (excl : List String) (m k : Nat) :
    ∀ (names : List String) (idx size : Nat) (bs : List (List String)),
    packIntlAux excl m k names idx size bs =
      packAux m k (names.filter (fun n => decide (n ∉ excl))) idx size bs := by
  intro names
  induction names with
  | nil => intro idx size bs; rfl
  | cons name rest ih =>
    intro idx size bs
    by_cases h : name ∈ excl
    · simp [packIntlAux, List.filter_cons, h, ih]
    · have hd : decide (name ∉ excl) = true := by simpa using h
      rw [List.filter_cons]
      simp only [hd, if_true, ite_true]
      simp only [packIntlAux, packAux, h, if_false, ite_false]
      by_cases hfit : m < size + (name.length + 4)
      · by_cases hlast : k ≤ idx + 1
        · simp [hfit, hlast]
        · simp [hfit, hlast, ih]
      · simp [hfit, ih]

/-! ## Claims C2, C3, C4 -/

theorem replicate_flatten_nil (k : Nat) :
    (List.replicate k ([] : List String)).flatten = [] :=
  List.flatten_eq_nil_iff.mpr (fun _ hx => List.eq_of_mem_replicate hx)

/-- Claim C3: concatenating the partitions returned by
`create_name_buckets` in ordinal order yields a prefix of the input
names in input order; the names not placed are exactly the remaining
contiguous suffix. -/
theorem claim_C3_truncation (results : List (String × Int)) (m k : Nat) (hk : 0 < k) :
    ∃ t, (create_name_buckets results m k).flatten =
      (results.map Prod.fst).take t := by
  obtain ⟨t, ht⟩ := packAux_flatten m k (results.map Prod.fst) 0 2
    (List.replicate k []) (by simp) hk (fun j _ => getD_replicate_empty k j)
  exact ⟨t, by rw [create_name_buckets, ht, replicate_flatten_nil]; simp⟩

theorem claim_C3_truncation_witness :
    0 < 4 ∧ ∃ t, (create_name_buckets [("Emma", 10), ("Olivia", 8)] 3950 4).flatten =
      ([("Emma", (10 : Int)), ("Olivia", 8)].map Prod.fst).take t :=
  ⟨by decide, claim_C3_truncation [("Emma", 10), ("Olivia", 8)] 3950 4 (by decide)⟩

/-- Claim C4: `create_international_name_buckets` produces exactly the
partitions `create_name_buckets` produces on the subsequence of names
not in the exclusion set (order preserved), and no excluded name ever
appears in any supplementary partition. -/
theorem claim_C4_refinement (names excl : List String) (m k : Nat) (hk : 0 < k) :
    (create_international_name_buckets names excl m k =
      create_name_buckets ((names.filter (fun n => decide (n ∉ excl))).map
        (fun n => (n, (0 : Int)))) m k)
  ∧ ∀ b ∈ create_international_name_buckets names excl m k, ∀ n ∈ b, n ∉ excl := by
  have heq : create_international_name_buckets names excl m k =
      packAux m k (names.filter (fun n => decide (n ∉ excl))) 0 2
        (List.replicate k []) :=
    packIntlAux_eq_filter excl m k names 0 2 _
  constructor
  · rw [heq, create_name_buckets, List.map_map]
    simp [Function.comp_def]
  · intro b hb n hn
    rw [heq] at hb
    rcases packAux_mem m k _ 0 2 (List.replicate k []) (by simp) hk b hb n hn with
      ⟨b0, hb0, hnb0⟩ | h
    · rw [List.eq_of_mem_replicate hb0] at hnb0
      simp at hnb0
    · simpa using (List.mem_filter.mp h).2

theorem claim_C4_refinement_witness :
    0 < 2
    ∧ ((create_international_name_buckets ["Yuki", "John"] ["John"] 3950 2 =
      create_name_buckets ((["Yuki", "John"].filter
        (fun n => decide (n ∉ ["John"]))).map (fun n => (n, (0 : Int)))) 3950 2)
    ∧ ∀ b ∈ create_international_name_buckets ["Yuki", "John"] ["John"] 3950 2,
        ∀ n ∈ b, n ∉ ["John"]) :=
  ⟨by decide, claim_C4_refinement ["Yuki", "John"] ["John"] 3950 2 (by decide)⟩

/-- Claim C2, counterexample: with budget 5 and 2 partitions, the single
name "ab" costs 2 + (2 + 4) = 8 > 5, so the loop advances to partition 2
and places it there without rechecking — the produced partition exceeds
the budget, refuting the claim as stated for all inputs. -/
theorem claim_C2_counterexample :
    ¬ (∀ b ∈ create_name_buckets [("ab", (1 : Int))] 5 2, bucketSize b ≤ 5) := by
  decide

/-- Claim C2 as amended: whenever every input name fits an empty
partition (2 + len(name) + 4 does not exceed the budget) and the budget
covers the container overhead, every partition produced by
`create_name_buckets` — and likewise by
`create_international_name_buckets` — satisfies the size budget. -/
theorem claim_C2_amended (results : List (String × Int)) (names excl : List String)
    (m k k2 : Nat) (hm : 2 ≤ m) (hk : 0 < k) (hk2 : 0 < k2)
    (h1 : ∀ p ∈ results, 2 + (p.1.length + 4) ≤ m)
    (h2 : ∀ n ∈ names, 2 + (n.length + 4) ≤ m) :
    (∀ b ∈ create_name_buckets results m k, bucketSize b ≤ m)
  ∧ (∀ b ∈ create_international_name_buckets names excl m k2, bucketSize b ≤ m) := by
  constructor
  · refine packAux_size m k (results.map Prod.fst) 0 2 (List.replicate k [])
      ?_ (by simp) hk (fun j _ => getD_replicate_empty k j) ?_ ?_
    · intro n hn
      obtain ⟨p, hp, rfl⟩ := List.mem_map.mp hn
      exact h1 p hp
    · intro b hb
      rw [List.eq_of_mem_replicate hb]
      simpa [bucketSize] using hm
    · rw [getD_replicate_empty]
      simp [bucketSize]
  · have heq : create_international_name_buckets names excl m k2 =
        packAux m k2 (names.filter (fun n => decide (n ∉ excl))) 0 2
          (List.replicate k2 []) :=
      packIntlAux_eq_filter excl m k2 names 0 2 _
    rw [heq]
    refine packAux_size m k2 _ 0 2 (List.replicate k2 [])
      ?_ (by simp) hk2 (fun j _ => getD_replicate_empty k2 j) ?_ ?_
    · intro n hn
      exact h2 n (List.mem_filter.mp hn).1
    · intro b hb
      rw [List.eq_of_mem_replicate hb]
      simpa [bucketSize] using hm
    · rw [getD_replicate_empty]
      simp [bucketSize]

theorem claim_C2_amended_witness :
    (2 ≤ 20 ∧ 0 < 4 ∧ 0 < 2
      ∧ (∀ p ∈ [("Emma", (10 : Int))], 2 + (p.1.length + 4) ≤ 20)
      ∧ (∀ n ∈ ["Yuki"], 2 + (n.length + 4) ≤ 20))
    ∧ ((∀ b ∈ create_name_buckets [("Emma", (10 : Int))] 20 4, bucketSize b ≤ 20)
      ∧ (∀ b ∈ create_international_name_buckets ["Yuki"] ["John"] 20 2,
          bucketSize b ≤ 20)) :=
  ⟨⟨by decide, by decide, by decide, by decide, by decide⟩,
    claim_C2_amended [("Emma", (10 : Int))] ["Yuki"] ["John"] 20 4 2
      (by decide) (by decide) (by decide) (by decide) (by decide)⟩

/-! ## Claim C5 : aggregation -/

instance : IsTotal (String × Int) (fun a b => b.2 ≤ a.2) :=
  ⟨fun a b => Int.le_total b.2 a.2⟩

instance : IsTrans (String × Int) (fun a b => b.2 ≤ a.2) :=
  ⟨fun _ _ _ h1 h2 => le_trans h2 h1⟩

theorem addCount_sum :
    ∀ (m : List (String × Int)) (name : String) (c : Int),
    ((addCount m name c).map Prod.snd).sum = (m.map Prod.snd).sum + c
  | [], name, c => by simp [addCount]
  | (k, v) :: rest, name, c => by
    by_cases h : k = name
    · simp [addCount, h]
      ring
    · simp [addCount, h, addCount_sum rest name c]
      ring

/-- Invariant of the read loop of `analyze_names`: the per-name totals
always sum to the grand total. -/
theorem foldl_processLine_sum :
    ∀ (lines : List String) (m : List (String × Int)) (t : Int),
    (m.map Prod.snd).sum = t →
    (((lines.foldl processLine (m, t)).1.map Prod.snd).sum =
      (lines.foldl processLine (m, t)).2)
  | [], m, t, h => h
  | line :: rest, m, t, h => by
    rw [List.foldl_cons]
    rcases hp : parseLine line with _ | ⟨name, year, count⟩
    · have hskip : processLine (m, t) line = (m, t) := by simp [processLine, hp]
      rw [hskip]
      exact foldl_processLine_sum rest m t h
    · by_cases hy : 1955 ≤ year ∧ year ≤ 2010
      · have hstep : processLine (m, t) line = (addCount m name count, t + count) := by
          simp [processLine, hp, hy]
        rw [hstep]
        exact foldl_processLine_sum rest _ _ (by rw [addCount_sum, h])
      · have hskip : processLine (m, t) line = (m, t) := by simp [processLine, hp, hy]
        rw [hskip]
        exact foldl_processLine_sum rest m t h

theorem processLine_skip (st : List (String × Int) × Int) (line : String)
    (h : lineAdmitted line = false) : processLine st line = st := by
  rcases hp : parseLine line with _ | ⟨name, year, count⟩
  · simp [processLine, hp]
  · have hy : ¬ (1955 ≤ year ∧ year ≤ 2010) := by
      simpa [lineAdmitted, hp] using h
    simp [processLine, hp, hy]

/-- Claim C5: the per-name totals of `analyze_names` sum to the returned
grand total; the output is sorted by total count descending; and a
malformed or out-of-window line contributes to neither — removing it
from the input leaves the result unchanged. -/
theorem claim_C5_aggregation (lines l1 l2 : List String) (bad : String)
    (hbad : lineAdmitted bad = false) :
    (((analyze_names lines).1.map Prod.snd).sum = (analyze_names lines).2)
  ∧ List.Sorted (fun a b => b.2 ≤ a.2) (analyze_names lines).1
  ∧ analyze_names (l1 ++ bad :: l2) = analyze_names (l1 ++ l2) := by
  refine ⟨?_, ?_, ?_⟩
  · have h := foldl_processLine_sum lines [] 0 (by simp)
    have hperm : List.Perm
        (List.insertionSort (fun a b => b.2 ≤ a.2) (lines.foldl processLine ([], 0)).1)
        (lines.foldl processLine ([], 0)).1 :=
      List.perm_insertionSort _ _
    calc ((analyze_names lines).1.map Prod.snd).sum
        = (((lines.foldl processLine ([], 0)).1).map Prod.snd).sum :=
          (hperm.map Prod.snd).sum_eq
      _ = (analyze_names lines).2 := h
  · exact List.sorted_insertionSort _ _
  · have : (l1 ++ bad :: l2).foldl processLine ([], 0)
        = (l1 ++ l2).foldl processLine ([], 0) := by
      rw [List.foldl_append, List.foldl_append, List.foldl_cons,
        processLine_skip _ bad hbad]
    simp [analyze_names, this]

theorem claim_C5_aggregation_witness :
    lineAdmitted "not a valid line" = false
    ∧ ((((analyze_names ["OH,F,1980,Emma,10", "OH,F,1981,Emma,5"]).1.map
          Prod.snd).sum = (analyze_names ["OH,F,1980,Emma,10", "OH,F,1981,Emma,5"]).2)
      ∧ List.Sorted (fun a b => b.2 ≤ a.2)
          (analyze_names ["OH,F,1980,Emma,10", "OH,F,1981,Emma,5"]).1
      ∧ analyze_names (["OH,F,1980,Emma,10"] ++ "not a valid line" :: ["OH,F,1981,Emma,5"])
          = analyze_names (["OH,F,1980,Emma,10"] ++ ["OH,F,1981,Emma,5"])) :=
  ⟨by decide,
    claim_C5_aggregation ["OH,F,1980,Emma,10", "OH,F,1981,Emma,5"]
      ["OH,F,1980,Emma,10"] ["OH,F,1981,Emma,5"] "not a valid line" (by decide)⟩

/-! ## Helper lemmas about strings and the store -/

theorem strStartsWith_append (p w : String) : strStartsWith (p ++ w) p = true := by
  have hd : (p ++ w).data = p.data ++ w.data := String.data_append p w
  simp [strStartsWith, hd, List.take_left]

theorem strDrop_append (p w : String) : strDrop (p ++ w) p.length = w := by
  have hd : (p ++ w).data = p.data ++ w.data := String.data_append p w
  simp only [strDrop, hd, String.length]
  rw [List.drop_left]

theorem other_not_startsWith_state (w : String) :
    strStartsWith ("otherNamesBucket" ++ w) "stateBucket" = false := by
  have hd : ("otherNamesBucket" ++ w).data = "otherNamesBucket".data ++ w.data :=
    String.data_append _ _
  have hlen : "stateBucket".data.length ≤ "otherNamesBucket".data.length := by decide
  simp only [strStartsWith, hd]
  rw [List.take_append_of_le_length hlen]
  decide

theorem stateBucket_append_ne_empty (w : String) : ("stateBucket" ++ w) ≠ "" := by
  intro h
  have h2 : "stateBucket".data ++ w.data = ("" : String).data := by
    have := congrArg String.data h
    rwa [String.data_append] at this
  have h3 : "stateBucket".data = [] := (List.append_eq_nil.mp h2).1
  exact absurd h3 (by decide)

theorem otherNamesBucket_append_ne_empty (w : String) :
    ("otherNamesBucket" ++ w) ≠ "" := by
  intro h
  have h2 : "otherNamesBucket".data ++ w.data = ("" : String).data := by
    have := congrArg String.data h
    rwa [String.data_append] at this
  have h3 : "otherNamesBucket".data = [] := (List.append_eq_nil.mp h2).1
  exact absurd h3 (by decide)

theorem dblookup_put :
    ∀ (store : List (String × Item)) (key : String) (item : Item),
    dblookup (put_item store key item) key = some item
  | [], key, item => by simp [put_item, dblookup]
  | ⟨k, v⟩ :: rest, key, item => by
    by_cases h : k = key
    · have heq : put_item (⟨k, v⟩ :: rest) key item = put_item rest key item := by
        simp [put_item, List.filter_cons, h]
      rw [heq]
      exact dblookup_put rest key item
    · have heq : put_item (⟨k, v⟩ :: rest) key item =
          ⟨k, v⟩ :: put_item rest key item := by
        simp [put_item, List.filter_cons, h]
      rw [heq, dblookup, if_neg (fun hh => h hh.symm)]
      exact dblookup_put rest key item

theorem filter_put (store : List (String × Item)) (key : String) (item : Item) :
    (put_item store key item).filter (fun p => decide (p.1 ≠ key)) =
      store.filter (fun p => decide (p.1 ≠ key)) := by
  rw [put_item, List.filter_append]
  have h1 : List.filter (fun p => decide (p.1 ≠ key)) [(key, item)] = [] := by simp
  rw [h1, List.append_nil, List.filter_filter]
  congr 1
  funext a
  exact Bool.and_self _

theorem put_put (store : List (String × Item)) (key : String) (item : Item) :
    put_item (put_item store key item) key item = put_item store key item := by
  show (put_item store key item).filter (fun p => decide (p.1 ≠ key)) ++ [(key, item)]
      = put_item store key item
  rw [filter_put]
  rfl

theorem process_other_buckets_indep (s1 s2 : List (String × Item))
    (nb : List (List String)) (intl : Option (List String))
    (e1 e2 : Option (List String)) :
    process_other_buckets s1 nb intl e1 = process_other_buckets s2 nb intl e2 := by
  cases intl with
  | none => rfl
  | some l => by_cases h : l = [] <;> simp [process_other_buckets, h]

/-! ## Claims C8 and C10 -/

/-- Claim C8: the aggregate-pack-publish pipeline is deterministic and
idempotent per state: rerunning `process_state_file` on the store it
produced yields the identical item and leaves the store unchanged, and
the published record is exactly the computed item — a full overwrite,
not a merge. -/
theorem claim_C8_idempotent (store : List (String × Item)) (lines : List String)
    (s : String) (intl : Option (List String)) (e : Option (List String)) :
    ((process_state_file (process_state_file store lines s intl e).2 lines s intl e).1
      = (process_state_file store lines s intl e).1)
  ∧ ((process_state_file (process_state_file store lines s intl e).2 lines s intl e).2
      = (process_state_file store lines s intl e).2)
  ∧ (dblookup (process_state_file store lines s intl e).2 s
      = some (process_state_file store lines s intl e).1) := by
  have hitem : (process_state_file
        (process_state_file store lines s intl e).2 lines s intl e).1
      = (process_state_file store lines s intl e).1 := by
    simp only [process_state_file]
    rw [process_other_buckets_indep _ store _ intl e e]
  have h3 : (process_state_file store lines s intl e).2
      = put_item store s (process_state_file store lines s intl e).1 := rfl
  refine ⟨hitem, ?_, ?_⟩
  · have h2 : (process_state_file
          (process_state_file store lines s intl e).2 lines s intl e).2
        = put_item (process_state_file store lines s intl e).2 s
          (process_state_file
            (process_state_file store lines s intl e).2 lines s intl e).1 := rfl
    rw [h2, hitem, h3, put_put]
  · rw [h3]
    exact dblookup_put store s _

/-- Claim C10: the supplementary partitions computed by
`process_state_file` do not depend on the pre-existing store contents or
on the `existing_names` argument — only the international list and the
freshly computed state buckets reach the packing call. -/
theorem claim_C10_noninterference (store1 store2 : List (String × Item))
    (nb : List (List String)) (lines : List String) (s : String)
    (intl : Option (List String)) (e1 e2 : Option (List String)) :
    (process_other_buckets store1 nb intl e1 = process_other_buckets store2 nb intl e2)
  ∧ (alookup (process_state_file store1 lines s intl e1).1 "otherNamesBucket1"
      = alookup (process_state_file store2 lines s intl e2).1 "otherNamesBucket1")
  ∧ (alookup (process_state_file store1 lines s intl e1).1 "otherNamesBucket2"
      = alookup (process_state_file store2 lines s intl e2).1 "otherNamesBucket2") := by
  refine ⟨process_other_buckets_indep store1 store2 nb intl e1 e2, ?_, ?_⟩ <;>
  · simp only [process_state_file]
    rw [process_other_buckets_indep store1 store2
      (create_name_buckets (analyze_names lines).1 3950 4) intl e1 e2]

/-! ## Validation lemmas for the lookup service -/

theorem validate_stateBucket_ok (db : DDB) (s w : String) (k : Int)
    (hs : s ≠ "") (hw : parseInt w = some k) (h1 : 1 ≤ k) (h4 : k ≤ 4) :
    validate_and_query db s ("stateBucket" ++ w) =
      query_bucket db s ("stateBucket" ++ w) := by
  have hne : ¬ (s = "" ∨ ("stateBucket" ++ w) = "") := by
    rintro (h | h)
    · exact hs h
    · exact stateBucket_append_ne_empty w h
  have hrange : ¬ ((k : Int) < 1 ∨ 4 < k) := by omega
  simp only [validate_and_query, hne, if_false, ite_false,
    strStartsWith_append "stateBucket" w, strDrop_append, hw, hrange,
    not_true, not_false_iff, true_or, ite_true, if_true, not_true_eq_false]

theorem validate_otherBucket_ok (db : DDB) (s w : String) (k : Int)
    (hs : s ≠ "") (hw : parseInt w = some k) (h1 : 1 ≤ k) (h2 : k ≤ 2) :
    validate_and_query db s ("otherNamesBucket" ++ w) =
      query_bucket db s ("otherNamesBucket" ++ w) := by
  have hne : ¬ (s = "" ∨ ("otherNamesBucket" ++ w) = "") := by
    rintro (h | h)
    · exact hs h
    · exact otherNamesBucket_append_ne_empty w h
  have hrange : ¬ ((k : Int) < 1 ∨ 2 < k) := by omega
  simp only [validate_and_query, hne, if_false, ite_false,
    strStartsWith_append "otherNamesBucket" w, other_not_startsWith_state,
    strDrop_append, hw, hrange, not_true, not_false_iff, or_true, ite_true]
  simp

theorem validate_stateBucket_err (db : DDB) (s w : String) (k : Int)
    (hs : s ≠ "") (hw : parseInt w = some k) (hout : k < 1 ∨ 4 < k) :
    validate_and_query db s ("stateBucket" ++ w) =
      RData.errObj "For state buckets, number must be between 1 and 4" := by
  have hne : ¬ (s = "" ∨ ("stateBucket" ++ w) = "") := by
    rintro (h | h)
    · exact hs h
    · exact stateBucket_append_ne_empty w h
  have hr : ((k : Int) < 1 ∨ 4 < k) = True := eq_true hout
  simp only [validate_and_query, hne, if_false, ite_false,
    strStartsWith_append "stateBucket" w, strDrop_append, hw, hr,
    not_true, not_false_iff, true_or, ite_true, if_true]

theorem validate_otherBucket_err (db : DDB) (s w : String) (k : Int)
    (hs : s ≠ "") (hw : parseInt w = some k) (hout : k < 1 ∨ 2 < k) :
    validate_and_query db s ("otherNamesBucket" ++ w) =
      RData.errObj "For other names buckets, number must be between 1 and 2" := by
  have hne : ¬ (s = "" ∨ ("otherNamesBucket" ++ w) = "") := by
    rintro (h | h)
    · exact hs h
    · exact otherNamesBucket_append_ne_empty w h
  have hr : ((k : Int) < 1 ∨ 2 < k) = True := eq_true hout
  simp only [validate_and_query, hne, if_false, ite_false,
    strStartsWith_append "otherNamesBucket" w, other_not_startsWith_state,
    strDrop_append, hw, hr, not_true, not_false_iff, or_true, ite_true]
  simp [hr]

theorem alookup_write_stateBucket (s : String) (nb : List (List String)) (u : Nat)
    (t : Int) (other : Option (List (List String))) :
    alookup (write_to_dynamodb_item s nb u t other) "stateBucket1"
      = some (Attr.namesA (nb.getD 0 []))
  ∧ alookup (write_to_dynamodb_item s nb u t other) "stateBucket2"
      = some (Attr.namesA (nb.getD 1 []))
  ∧ alookup (write_to_dynamodb_item s nb u t other) "stateBucket3"
      = some (Attr.namesA (nb.getD 2 []))
  ∧ alookup (write_to_dynamodb_item s nb u t other) "stateBucket4"
      = some (Attr.namesA (nb.getD 3 [])) := by
  rcases other with _ | obs
  · refine ⟨?_, ?_, ?_, ?_⟩ <;> simp [write_to_dynamodb_item, alookup]
  · by_cases hobs : obs = [] <;> refine ⟨?_, ?_, ?_, ?_⟩ <;>
      simp [write_to_dynamodb_item, alookup, hobs]

/-! ## Claims C1, C6, C7, C9 -/

/-- Claim C1: after publishing a record for state `s` with buckets
`B1..B4`, resolving `(s, stateBucket n)` for any ordinal `n` in 1..4
against the store returns exactly the bucket packed for that ordinal,
in order — the lookup reads the partition under the very key string the
loader wrote. -/
theorem claim_C1_roundtrip (store : List (String × Item)) (s : String) (hs : s ≠ "")
    (B1 B2 B3 B4 : List String) (u : Nat) (t : Int)
    (other : Option (List (List String))) (n : Nat) (hn1 : 1 ≤ n) (hn4 : n ≤ 4) :
    lambda_handler
      (DDB.avail (put_item store s
        (write_to_dynamodb_item s [B1, B2, B3, B4] u t other)))
      (Event.direct (some s) (some (stateBucketKey n)))
    = Response.raw (RData.data (Attr.namesA ([B1, B2, B3, B4].getD (n - 1) []))) := by
  interval_cases n
  · rw [show stateBucketKey 1 = "stateBucket" ++ "1" by decide]
    simp only [lambda_handler, Option.getD]
    rw [validate_stateBucket_ok _ s "1" 1 hs (by decide) (by decide) (by decide),
      show ("stateBucket" ++ "1" : String) = "stateBucket1" by decide]
    simp [format_response, query_bucket, dblookup_put,
      (alookup_write_stateBucket s [B1, B2, B3, B4] u t other).1]
  · rw [show stateBucketKey 2 = "stateBucket" ++ "2" by decide]
    simp only [lambda_handler, Option.getD]
    rw [validate_stateBucket_ok _ s "2" 2 hs (by decide) (by decide) (by decide),
      show ("stateBucket" ++ "2" : String) = "stateBucket2" by decide]
    simp [format_response, query_bucket, dblookup_put,
      (alookup_write_stateBucket s [B1, B2, B3, B4] u t other).2.1]
  · rw [show stateBucketKey 3 = "stateBucket" ++ "3" by decide]
    simp only [lambda_handler, Option.getD]
    rw [validate_stateBucket_ok _ s "3" 3 hs (by decide) (by decide) (by decide),
      show ("stateBucket" ++ "3" : String) = "stateBucket3" by decide]
    simp [format_response, query_bucket, dblookup_put,
      (alookup_write_stateBucket s [B1, B2, B3, B4] u t other).2.2.1]
  · rw [show stateBucketKey 4 = "stateBucket" ++ "4" by decide]
    simp only [lambda_handler, Option.getD]
    rw [validate_stateBucket_ok _ s "4" 4 hs (by decide) (by decide) (by decide),
      show ("stateBucket" ++ "4" : String) = "stateBucket4" by decide]
    simp [format_response, query_bucket, dblookup_put,
      (alookup_write_stateBucket s [B1, B2, B3, B4] u t other).2.2.2]

theorem claim_C1_roundtrip_witness :
    (("OH" : String) ≠ "" ∧ 1 ≤ 1 ∧ 1 ≤ 4)
    ∧ lambda_handler
      (DDB.avail (put_item [] "OH"
        (write_to_dynamodb_item "OH" [["Emma"], ["Noah"], ["Ava"], ["Leo"]] 4 99 none)))
      (Event.direct (some "OH") (some (stateBucketKey 1)))
    = Response.raw (RData.data (Attr.namesA
        ([["Emma"], ["Noah"], ["Ava"], ["Leo"]].getD (1 - 1) []))) :=
  ⟨⟨by decide, by decide, by decide⟩,
    claim_C1_roundtrip [] "OH" (by decide) ["Emma"] ["Noah"] ["Ava"] ["Leo"] 4 99
      none 1 (by decide) (by decide)⟩

/-- Claim C6: an own-partition identifier with an ordinal outside 1..4,
or a supplementary identifier with an ordinal outside 1..2, is rejected
with the family-specific range error — for every store, including one
whose read would fail, so no store access takes place. -/
theorem claim_C6_range_errors (db : DDB) (s w : String) (k : Int)
    (hs : s ≠ "") (hw : parseInt w = some k) :
    ((k < 1 ∨ 4 < k) → validate_and_query db s ("stateBucket" ++ w)
        = RData.errObj "For state buckets, number must be between 1 and 4")
  ∧ ((k < 1 ∨ 2 < k) → validate_and_query db s ("otherNamesBucket" ++ w)
        = RData.errObj "For other names buckets, number must be between 1 and 2") :=
  ⟨fun hout => validate_stateBucket_err db s w k hs hw hout,
   fun hout => validate_otherBucket_err db s w k hs hw hout⟩

theorem claim_C6_range_errors_witness :
    (("OH" : String) ≠ "" ∧ parseInt "5" = some 5)
    ∧ validate_and_query (DDB.failed "unavailable") "OH" ("stateBucket" ++ "5")
        = RData.errObj "For state buckets, number must be between 1 and 4"
    ∧ validate_and_query (DDB.failed "unavailable") "OH" ("otherNamesBucket" ++ "3")
        = RData.errObj "For other names buckets, number must be between 1 and 2" :=
  ⟨⟨by decide, by decide⟩,
    (claim_C6_range_errors (DDB.failed "unavailable") "OH" "5" 5 (by decide)
      (by decide)).1 (by omega),
    (claim_C6_range_errors (DDB.failed "unavailable") "OH" "3" 3 (by decide)
      (by decide)).2 (by omega)⟩

/-- Claim C7: for a valid request, a state with no record resolves to
the empty list, and a record lacking the requested partition key also
resolves to the empty list — neither is an error. -/
theorem claim_C7_missing_data (items : List (String × Item)) (s w : String) (k : Int)
    (hs : s ≠ "") (hw : parseInt w = some k) :
    ((1 ≤ k ∧ k ≤ 4) →
      (dblookup items s = none →
        validate_and_query (DDB.avail items) s ("stateBucket" ++ w)
          = RData.data (Attr.namesA []))
      ∧ (∀ item, dblookup items s = some item →
          alookup item ("stateBucket" ++ w) = none →
          validate_and_query (DDB.avail items) s ("stateBucket" ++ w)
            = RData.data (Attr.namesA [])))
  ∧ ((1 ≤ k ∧ k ≤ 2) →
      (dblookup items s = none →
        validate_and_query (DDB.avail items) s ("otherNamesBucket" ++ w)
          = RData.data (Attr.namesA []))
      ∧ (∀ item, dblookup items s = some item →
          alookup item ("otherNamesBucket" ++ w) = none →
          validate_and_query (DDB.avail items) s ("otherNamesBucket" ++ w)
            = RData.data (Attr.namesA []))) := by
  constructor
  · rintro ⟨h1, h4⟩
    constructor
    · intro hnone
      rw [validate_stateBucket_ok (DDB.avail items) s w k hs hw h1 h4]
      simp [query_bucket, hnone]
    · intro item hsome habs
      rw [validate_stateBucket_ok (DDB.avail items) s w k hs hw h1 h4]
      simp [query_bucket, hsome, habs]
  · rintro ⟨h1, h2⟩
    constructor
    · intro hnone
      rw [validate_otherBucket_ok (DDB.avail items) s w k hs hw h1 h2]
      simp [query_bucket, hnone]
    · intro item hsome habs
      rw [validate_otherBucket_ok (DDB.avail items) s w k hs hw h1 h2]
      simp [query_bucket, hsome, habs]

theorem claim_C7_missing_data_witness :
    ((("ZZ" : String) ≠ "" ∧ parseInt "1" = some 1)
      ∧ dblookup [] "ZZ" = none
      ∧ dblookup [("OH", [("State", Attr.strA "OH")])] "OH"
          = some [("State", Attr.strA "OH")]
      ∧ alookup [("State", Attr.strA "OH")] ("otherNamesBucket" ++ "1") = none)
    ∧ validate_and_query (DDB.avail []) "ZZ" ("stateBucket" ++ "1")
        = RData.data (Attr.namesA [])
    ∧ validate_and_query (DDB.avail [("OH", [("State", Attr.strA "OH")])]) "OH"
        ("otherNamesBucket" ++ "1") = RData.data (Attr.namesA []) :=
  ⟨⟨⟨by decide, by decide⟩, by decide, by decide, by decide⟩,
    ((claim_C7_missing_data [] "ZZ" "1" 1 (by decide) (by decide)).1
      (by omega)).1 (by decide),
    ((claim_C7_missing_data [("OH", [("State", Attr.strA "OH")])] "OH" "1" 1
      (by decide) (by decide)).2 (by omega)).2
      [("State", Attr.strA "OH")] (by decide) (by decide)⟩

/-- Claim C9: every response to an event in the API-Gateway shape is a
status-200 envelope with the payload (data or error object) inside the
body — except the branch whose body matches neither the args shape nor
the transcript shape, which alone returns status 400. -/
theorem claim_C9_envelope (db : DDB) (body : Body) :
    ∃ d, lambda_handler db (Event.apiGateway body)
      = Response.envelope (if body = Body.otherShape then 400 else 200) d := by
  cases body with
  | argsShape st bk =>
    refine ⟨validate_and_query db (st.getD "") (bk.getD ""), ?_⟩
    simp [lambda_handler, format_response]
  | transcriptShape calls =>
    rcases hx : extractFirstArgs calls with _ | ⟨st, bk⟩
    · exact ⟨RData.errObj "Error parsing request",
        by simp [lambda_handler, hx, format_response]⟩
    · exact ⟨validate_and_query db (st.getD "") (bk.getD ""),
        by simp [lambda_handler, hx, format_response]⟩
  | otherShape => exact ⟨RData.errObj "Invalid request format", by simp [lambda_handler]⟩
